import Mathlib

/-!
Shallow embedding of the `alpm.rs` safe-binding layer (src/alpm/src/handle.rs,
filelist.rs, package.rs, remove.rs) and proofs about its contracts.

Conventions of the embedding:
* A native byte string is a `List Nat` of byte values; a nul-terminated C
  buffer is such a list ending in `0` with no interior `0`.
* A native `char*` pointer is an `Option Bytes`: `none` is the null pointer,
  `some s` points to a nul-terminated buffer holding the bytes `s`.
* Rust panics/aborts (`.unwrap()` on `Err`/`None`) are modelled by an outer
  `Option`: a result of `none` means the operation panicked and produced no
  value at all.
* Fallible operations that the wrapper surfaces as `Result<T>` are modelled
  as `Except Nat T`, the `Nat` being the native error code carried by the
  typed error.
* The wrapped native library is an external collaborator; where a claim
  depends on its behaviour, or on repository code that is not under src/
  (utils.rs, list.rs, types.rs), the definition is modelled from the spec
  and its doc comment says so.
-/

namespace AlpmRs

abbrev Bytes := List Nat

/-- `std::ffi::CString::new` from the Rust standard library, as used at
handle.rs:94 etc.: fails with `NulError` exactly when the input contains an
interior nul byte, otherwise yields the input bytes followed by the
terminating nul — it never truncates. -/
def cstring_new (s : Bytes) : Except Unit Bytes :=
  if 0 ∈ s then Except.error () else Except.ok (s ++ [0])

/-- Modelled from the spec: `check_ret` lives in utils.rs, which is not under
src/. Per §6/§7, "integer return codes where zero means success and nonzero
maps to an enumerated error domain" and "every native integer return code is
checked immediately after the call and converted" to a typed error derived
from the native error code (`errno`). -/
def check_ret (errno : Nat) (ret : Int) : Except Nat Unit :=
  if ret = 0 then Except.ok () else Except.error errno

/-- Modelled from the spec: the strict string bridge `from_cstr` lives in
utils.rs, which is not under src/. Per §4.1 it is the strict retrieval mode:
it panics on a null pointer and otherwise yields the pointed-to text. The
outer `Option` is the panic: `none` means the accessor aborted. -/
def from_cstr : Option Bytes → Option Bytes
  | none => none
  | some s => some s

/-- Modelled from the spec: `from_cstr_optional` lives in utils.rs, not under
src/. Per §4.1 it is the optional retrieval mode: a null pointer becomes
`None` as a value (never a panic), a non-null pointer becomes `Some` of the
pointed-to text. -/
def from_cstr_optional (p : Option Bytes) : Option Bytes := p

/-- Modelled from the spec: `from_cstr_optional2` lives in utils.rs, not
under src/. Per §4.1 it is the optional-to-empty retrieval mode, "used for
optional display fields" whose semantics "conflate unset with empty": a null
pointer becomes the empty string, a non-null pointer the pointed-to text. -/
def from_cstr_optional2 (p : Option Bytes) : Bytes := p.getD []

/-! ## Native list options and the Handle

The native session stores, per managed option, a list of strings (hookdirs,
cachedirs, ...). The wrapper's mutators call the native add/remove/set
entry points and decode their integer return. -/

/-- Modelled from the spec: the native remove-from-list entry point
(`alpm_option_remove_hookdir` and friends). Per §4.3 a remove is tri-state,
"removed=true, not-found=false, or error", "a distinguished truthy code
meaning removed": it returns 1 and erases the element when it is a member,
and returns 0 leaving the list unchanged when it is not a member. Error
paths return a negative code. -/
def native_remove (l : List Bytes) (s : Bytes) : Int × List Bytes :=
  if s ∈ l then (1, l.erase s) else (0, l)

/-- The shared return-decoding of every `remove_*` mutator, read off
handle.rs:105-113 (`remove_hookdir`) and its eight textual copies
(`remove_cachedir`, `remove_noupgrade`, `remove_noextract`,
`remove_ignorepkg`, `remove_ignoregroup`, `remove_overwrite_file`,
`remove_assume_installed`, `remove_architecture`):
`if ret == 1 { Ok(true) } else { self.check_ret(ret).map(|_| false) }`. -/
def remove_decode (errno : Nat) (ret : Int) : Except Nat Bool :=
  if ret = 1 then Except.ok true else (check_ret errno ret).map (fun _ => false)

/-- `Alpm::remove_hookdir` (handle.rs:105-113): convert the argument with
`CString::new(s).unwrap()` (panicking on interior nul — outer `Option`),
call the native remove, decode the return. Returns the decoded result
together with the list state after the call. -/
def remove_hookdir (errno : Nat) (l : List Bytes) (s : Bytes) :
    Option (Except Nat Bool × List Bytes) :=
  match cstring_new s with
  | Except.error _ => none
  | Except.ok _ =>
      let r := native_remove l s
      some (remove_decode errno r.1, r.2)

/-- `Alpm::remove_assume_installed` (handle.rs:310-317): no string
conversion (the argument is a `Dep`), otherwise the same native call and
decode. Deps are represented by their description bytes. -/
def remove_assume_installed (errno : Nat) (l : List Bytes) (d : Bytes) :
    Except Nat Bool × List Bytes :=
  let r := native_remove l d
  (remove_decode errno r.1, r.2)

/-- Modelled from the spec: the native add-to-list entry point
(`alpm_option_add_hookdir` and friends), §4.3: appends the element to the
managed list and returns 0 on success. -/
def native_add (l : List Bytes) (s : Bytes) : Int × List Bytes :=
  (0, l ++ [s])

/-- `Alpm::add_hookdir` (handle.rs:93-97) and its textual copies
(`add_cachedir`, `add_noupgrade`, ...): `CString::new(s).unwrap()`
(panicking on interior nul — outer `Option` is the panic), then the native
add, then `check_ret`. -/
def add_hookdir (errno : Nat) (l : List Bytes) (s : Bytes) :
    Option (Except Nat Unit × List Bytes) :=
  match cstring_new s with
  | Except.error _ => none
  | Except.ok _ =>
      let r := native_add l s
      some ((check_ret errno r.1).map (fun _ => ()), r.2)

/-- `Alpm::set_logfile` (handle.rs:141-145): `CString::new(s).unwrap()`
(panicking on interior nul), then the native setter, then `check_ret`. The
stored logfile is the new state. -/
def set_logfile (errno : Nat) (s : Bytes) :
    Option (Except Nat Unit × Bytes) :=
  match cstring_new s with
  | Except.error _ => none
  | Except.ok _ => some (check_ret errno 0, s)

/-- Modelled from the spec: the `IntoRawAlpmList` conversion lives in
list.rs, which is not under src/. Per §4.3, bulk set operations "must accept
an input sequence, convert it into a native list without leaking on
conversion failure ... and report failure if any element fails to convert
(e.g., embedded nul byte) before any native state is mutated". Each element
goes through the C-string conversion; the first failure aborts the whole
conversion. -/
def into_raw_alpm_list : List Bytes → Except Unit (List Bytes)
  | [] => Except.ok []
  | x :: xs =>
      match cstring_new x, into_raw_alpm_list xs with
      | Except.error _, _ => Except.error ()
      | Except.ok _, Except.error _ => Except.error ()
      | Except.ok _, Except.ok _ => Except.ok (x :: xs)

/-- Modelled from the spec: the native set-list entry point
(`alpm_option_set_hookdirs` and friends), §4.3: "replace the entire managed
list atomically from the native library's perspective", returning 0 on
success. -/
def native_set (xs : List Bytes) : Int × List Bytes :=
  (0, xs)

/-- `Alpm::set_hookdirs` (handle.rs:99-103) and its textual copies
(`set_cachedirs`, `set_noupgrades`, `set_noextracts`, `set_ignorepkgs`,
`set_ignoregroups`, `set_overwrite_files`, `set_architectures`,
`set_assume_installed`): first `list.into_raw_alpm_list()` converts the
whole input, then — only if conversion succeeded — the native setter is
called and its return checked. On conversion failure the returned state is
the untouched previous list `st`. -/
def set_hookdirs (errno : Nat) (st : List Bytes) (xs : List Bytes) :
    Except Unit (Except Nat Unit) × List Bytes :=
  match into_raw_alpm_list xs with
  | Except.error e => (Except.error e, st)
  | Except.ok converted =>
      let r := native_set converted
      (Except.ok ((check_ret errno r.1).map (fun _ => ())), r.2)

/-! ## Match decoding (match_noupgrade / match_noextract) -/

inductive Match : Type
  | Yes : Match
  | Inverted : Match
  | No : Match
  deriving DecidableEq, Repr

/-- The return decoding shared by `match_noupgrade` (handle.rs:180-189) and
`match_noextract` (handle.rs:213-222): `match ret.cmp(&0)` sending `Equal`
to `Match::Yes`, `Greater` to `Match::Inverted`, `Less` to `Match::No`. -/
def match_decode (ret : Int) : Match :=
  match compare ret 0 with
  | Ordering.eq => Match.Yes
  | Ordering.gt => Match.Inverted
  | Ordering.lt => Match.No

/-- `Alpm::match_noupgrade` (handle.rs:180-189): `CString::new(s).unwrap()`
(panicking on interior nul), then the native matcher — whose integer result
`ret` is left abstract here, the matching logic being native — then the
sign decode. -/
def match_noupgrade (s : Bytes) (ret : Int) : Option Match :=
  match cstring_new s with
  | Except.error _ => none
  | Except.ok _ => some (match_decode ret)

/-- `Alpm::match_noextract` (handle.rs:213-222): textually the same
pipeline as `match_noupgrade` against the noextract list. -/
def match_noextract (s : Bytes) (ret : Int) : Option Match :=
  match cstring_new s with
  | Except.error _ => none
  | Except.ok _ => some (match_decode ret)

/-! ## The Handle and its string accessors

The native session handle is modelled by the pointers the accessors under
scrutiny read: the root, dbpath and lockfile strings (strict fields), the
logfile (optional field) and the gpgdir (optional-to-empty field). -/

structure Handle : Type where
  rootPtr : Option Bytes
  dbpathPtr : Option Bytes
  lockfilePtr : Option Bytes
  logfilePtr : Option Bytes
  gpgdirPtr : Option Bytes
  deriving DecidableEq, Repr

/-- Modelled from the spec: `Alpm::new` is not under src/. Per §4.3 the
Handle "is created from a root path and a database path", and per §8 "for
all valid root/database path pairs, Handle creation succeeds and
root()/dbpath() echo the input": the native session stores the two given
paths (non-null), with the remaining option fields initially unset as the
repository's own test observes (handle.rs:426, `logfile().is_none()`;
handle.rs:425, `gpgdir().is_empty()`). The lockfile is derived by the
native library inside dbpath (handle.rs:421, `!lockfile().is_empty()`). -/
def Alpm.new (root dbpath : Bytes) : Option Handle :=
  if 0 ∈ root ∨ 0 ∈ dbpath then none
  else some { rootPtr := some root
              dbpathPtr := some dbpath
              lockfilePtr := some (dbpath ++ [100, 98, 46, 108, 99, 107])
              logfilePtr := none
              gpgdirPtr := none }

/-- `Alpm::root` (handle.rs:20-22): `from_cstr(alpm_option_get_root(...))`,
the strict mode — `none` is a panic. -/
def Alpm.root (h : Handle) : Option Bytes := from_cstr h.rootPtr

/-- `Alpm::dbpath` (handle.rs:24-26): strict mode over the dbpath field. -/
def Alpm.dbpath (h : Handle) : Option Bytes := from_cstr h.dbpathPtr

/-- `Alpm::lockfile` (handle.rs:38-40): strict mode over the lockfile
field. -/
def Alpm.lockfile (h : Handle) : Option Bytes := from_cstr h.lockfilePtr

/-- `Alpm::logfile` (handle.rs:137-139):
`from_cstr_optional(alpm_option_get_logfile(...))` — null becomes `None` as
a value. -/
def Alpm.logfile (h : Handle) : Option Bytes := from_cstr_optional h.logfilePtr

/-- `Alpm::gpgdir` (handle.rs:42-44):
`from_cstr_optional2(alpm_option_get_gpgdir(...))` — null becomes the empty
string. -/
def Alpm.gpgdir (h : Handle) : Bytes := from_cstr_optional2 h.gpgdirPtr

/-! ## Package accessors (package.rs)

A package view is modelled by the native string fields the C7 claim reads. -/

structure PkgData : Type where
  namePtr : Option Bytes
  filenamePtr : Option Bytes
  descPtr : Option Bytes
  urlPtr : Option Bytes
  packagerPtr : Option Bytes
  deriving DecidableEq, Repr

/-- `Pkg::name` (package.rs:77-80): strict mode over the name field. -/
def Pkg.name (p : PkgData) : Option Bytes := from_cstr p.namePtr

/-- `Pkg::filename` (package.rs:92-95): optional-to-empty mode over the
filename field. -/
def Pkg.filename (p : PkgData) : Bytes := from_cstr_optional2 p.filenamePtr

/-- `Pkg::desc` (package.rs:112-115): optional mode over the description
field. -/
def Pkg.desc (p : PkgData) : Option Bytes := from_cstr_optional p.descPtr

/-- `Pkg::url` (package.rs:117-120): optional mode over the url field. -/
def Pkg.url (p : PkgData) : Option Bytes := from_cstr_optional p.urlPtr

/-- `Pkg::packager` (package.rs:136-139): optional mode over the packager
field. -/
def Pkg.packager (p : PkgData) : Option Bytes := from_cstr_optional p.packagerPtr

/-! ## FileList (filelist.rs) -/

/-- The native `alpm_file_t` record: a name pointer, a size and a mode
(filelist.rs:10-13). -/
structure FileRec : Type where
  namePtr : Option Bytes
  size : Int
  mode : Nat
  deriving DecidableEq, Repr

/-- `File::name` (filelist.rs:26-28): strict mode over the record's name
pointer. -/
def File.name (f : FileRec) : Option Bytes := from_cstr f.namePtr

/-- `File::size` (filelist.rs:30-33): the record's size field. -/
def File.size (f : FileRec) : Int := f.size

/-- `File.mode` (filelist.rs:35-37): the record's mode field. -/
def File.mode (f : FileRec) : Nat := f.mode

/-- The native `alpm_filelist_t`: a count and a pointer to an array of file
records. `none` is the null pointer; `some arr` points at the in-memory
array `arr` (of which the native contract says at least `count` records are
valid). -/
structure FileListT : Type where
  count : Nat
  filesPtr : Option (List FileRec)
  deriving DecidableEq, Repr

/-- `FileList::files` (filelist.rs:51-57): a null pointer yields a
zero-length slice without being dereferenced; a non-null pointer is
reinterpreted as a slice of exactly `count` records
(`slice::from_raw_parts(ptr, count)` — the first `count` records at the
pointer). -/
def FileList.files (fl : FileListT) : List FileRec :=
  match fl.filesPtr with
  | none => []
  | some arr => arr.take fl.count

/-- Modelled from the spec: `alpm_filelist_contains` is native. Per §4.4 it
"performs a native substring/exact lookup" over the file list, returning a
pointer to the matching record — the record whose stored name equals the
queried path — or null when the path is absent. -/
def alpm_filelist_contains (fl : FileListT) (path : Bytes) :
    Option FileRec :=
  (FileList.files fl).find? (fun f => f.namePtr = some path)

/-- `FileList::contains` (filelist.rs:59-74): `CString::new(path).unwrap()`
(panicking on interior nul — outer `Option`), the native lookup, then null
becomes `Ok(None)` and non-null is dereferenced, copied and wrapped as
`Ok(Some(file))`. -/
def FileList.contains (fl : FileListT) (path : Bytes) :
    Option (Except Nat (Option FileRec)) :=
  match cstring_new path with
  | Except.error _ => none
  | Except.ok _ =>
      match alpm_filelist_contains fl path with
      | none => some (Except.ok none)
      | some f => some (Except.ok (some f))

/-! ## Signature levels and validation flags (bit-flag decoding)

`SigLevel` and `PackageValidation` are bitflags types declared in types.rs,
which is not under src/; per spec §4.4 / §9 they are "bit-flag enumerations
decoded via exhaustive match over known native constants". We keep the mask
of known constants abstract (a parameter), which is all the decoding logic
depends on. The integer casts `as i32` / `as u32` at the FFI boundary are
the two's-complement reinterpretations. -/

/-- The Rust cast `u32 as i32`: two's-complement reinterpretation of a
32-bit unsigned value. -/
def i32_of_u32 (n : Nat) : Int :=
  if n < 2 ^ 31 then (n : Int) else (n : Int) - 2 ^ 32

/-- The Rust cast `i32 as u32`: two's-complement reinterpretation back to
unsigned (on the i32 range this is reduction mod `2^32`). -/
def u32_of_i32 (i : Int) : Nat :=
  (i % 2 ^ 32).toNat

/-- Modelled from the spec: `bitflags`-generated `from_bits` for the flag
types declared in types.rs (not under src/): it accepts exactly the
integers whose set bits all lie inside the mask of known constants, and
rejects (returns `None` for) any integer carrying unrecognized bits —
it never drops bits. -/
def flags_from_bits (mask b : Nat) : Option Nat :=
  if b &&& mask = b then some b else none

/-- Modelled from the spec: the native siglevel option storage
(`alpm_option_set_default_siglevel` / `alpm_option_get_default_siglevel`
and the local/remote twins are native). The setter stores the `i32` it is
given and returns 0; the getter returns the stored `i32`. -/
def native_store_siglevel (v : Int) : Int × Int :=
  (0, v)

/-- `Alpm::set_default_siglevel` (handle.rs:369-372): pass `s.bits() as
i32` to the native setter and `check_ret` its return. Yields the wrapper
result and the stored native value. -/
def set_default_siglevel (errno : Nat) (L : Nat) :
    Except Nat Unit × Int :=
  let r := native_store_siglevel (i32_of_u32 L)
  ((check_ret errno r.1).map (fun _ => ()), r.2)

/-- `Alpm::default_siglevel` (handle.rs:374-377): read the stored native
`i32`, cast `as u32`, then `SigLevel::from_bits(..).unwrap()` — `none` is
the panic of the unwrap. -/
def default_siglevel (mask : Nat) (st : Int) : Option Nat :=
  flags_from_bits mask (u32_of_i32 st)

/-- `Alpm::set_local_file_siglevel` (handle.rs:379-382): textually the same
pipeline as `set_default_siglevel` against the local-file option. -/
def set_local_file_siglevel (errno : Nat) (L : Nat) :
    Except Nat Unit × Int :=
  let r := native_store_siglevel (i32_of_u32 L)
  ((check_ret errno r.1).map (fun _ => ()), r.2)

/-- `Alpm::local_file_siglevel` (handle.rs:384-387): textually the same
decode as `default_siglevel`. -/
def local_file_siglevel (mask : Nat) (st : Int) : Option Nat :=
  flags_from_bits mask (u32_of_i32 st)

/-- `Alpm::set_remote_file_siglevel` (handle.rs:389-392): textually the
same pipeline against the remote-file option. -/
def set_remote_file_siglevel (errno : Nat) (L : Nat) :
    Except Nat Unit × Int :=
  let r := native_store_siglevel (i32_of_u32 L)
  ((check_ret errno r.1).map (fun _ => ()), r.2)

/-- `Alpm::remote_file_siglevel` (handle.rs:394-397): textually the same
decode as `default_siglevel`. -/
def remote_file_siglevel (mask : Nat) (st : Int) : Option Nat :=
  flags_from_bits mask (u32_of_i32 st)

/-- `Pkg::validation` (package.rs:171-174): read the native validation
`i32`, cast `as u32`, then `PackageValidation::from_bits(..).unwrap()` —
`none` is the panic of the unwrap. `vmask` is the mask of known
`PackageValidation` constants. -/
def Pkg.validation (vmask : Nat) (raw : Int) : Option Nat :=
  flags_from_bits vmask (u32_of_i32 raw)

/-! ## Theorems -/

/-- C1: every remove-from-list mutator decodes the single native integer
return into a tri-state result: a native return of 1 yields `Ok(true)`
(removed); removing an element that is not a member yields `Ok(false)`
(not found), never an error — shown on the full `remove_hookdir` pipeline
and on `remove_assume_installed`; and an error-path (negative) return
yields the typed error derived from the native error code. -/
theorem remove_tri_state (errno : Nat) (l : List Bytes) (s d : Bytes)
    (hs : (0 : Nat) ∉ s) :
    remove_decode errno 1 = Except.ok true ∧
    (s ∉ l → remove_hookdir errno l s = some (Except.ok false, l)) ∧
    (s ∈ l → remove_hookdir errno l s = some (Except.ok true, l.erase s)) ∧
    (d ∉ l → remove_assume_installed errno l d = (Except.ok false, l)) ∧
    (∀ ret : Int, ret < 0 → remove_decode errno ret = Except.error errno) := by
  refine ⟨rfl, fun hns => ?_, fun hm => ?_, fun hnd => ?_, fun ret hlt => ?_⟩
  · simp [remove_hookdir, cstring_new, hs, native_remove, hns, remove_decode,
      check_ret, Except.map]
  · simp [remove_hookdir, cstring_new, hs, native_remove, hm, remove_decode]
  · simp [remove_assume_installed, native_remove, hnd, remove_decode,
      check_ret, Except.map]
  · have h1 : ret ≠ 1 := by omega
    have h0 : ret ≠ 0 := by omega
    simp [remove_decode, h1, check_ret, h0, Except.map]

/-- C1 witness: the tri-state decode evaluated at concrete inputs. -/
theorem remove_tri_state_witness :
    remove_decode 7 1 = Except.ok true ∧
    remove_hookdir 7 [[97]] [98] = some (Except.ok false, [[97]]) ∧
    remove_hookdir 7 [[97]] [97] = some (Except.ok true, []) ∧
    remove_decode 7 (-1) = Except.error 7 := by
  obtain ⟨h1, h2, h3, _, h5⟩ :=
    remove_tri_state 7 [[97]] [98] [99] (by decide)
  obtain ⟨_, _, h3, _, _⟩ :=
    remove_tri_state 7 [[97]] [97] [99] (by decide)
  exact ⟨h1, h2 (by decide), by simpa using h3 (by decide), h5 (-1) (by decide)⟩

/-- C2 counterexample: the claim says an input holding an embedded nul
makes the operation "fail with an explicit error"; on the concrete input
`[104, 0, 105]` the mutator `add_hookdir` panics (`CString::new(..)
.unwrap()` aborts, modelled as `none`) and never produces an error value. -/
theorem add_hookdir_nul_panics :
    add_hookdir 5 [] [104, 0, 105] = none ∧
    ∀ (e : Nat) (r : List Bytes),
      add_hookdir 5 [] [104, 0, 105] ≠ some (Except.error e, r) := by
  refine ⟨rfl, fun e r h => ?_⟩
  rw [show add_hookdir 5 [] [104, 0, 105] = none from rfl] at h
  exact Option.noConfusion h

/-- C2 (amended): an input containing an embedded nul byte makes the
C-string conversion fail with an explicit `NulError`, which the operations
(`add_hookdir`, `set_logfile`, `FileList::contains`, ...) unwrap — so they
panic rather than return a typed error — and the input is never silently
truncated: a successful conversion yields exactly the input bytes followed
by the terminating nul. -/
theorem embedded_nul_aborts_never_truncates (s : Bytes) (errno : Nat)
    (l : List Bytes) :
    ((0 : Nat) ∈ s →
      cstring_new s = Except.error () ∧
      add_hookdir errno l s = none ∧
      set_logfile errno s = none ∧
      ∀ fl : FileListT, FileList.contains fl s = none) ∧
    ((0 : Nat) ∉ s → cstring_new s = Except.ok (s ++ [0])) := by
  constructor
  · intro hnul
    refine ⟨by simp [cstring_new, hnul], by simp [add_hookdir, cstring_new, hnul],
      by simp [set_logfile, cstring_new, hnul], fun fl => ?_⟩
    simp [FileList.contains, cstring_new, hnul]
  · intro hok
    simp [cstring_new, hok]

/-- C2 witness: the amended behaviour at concrete inputs — panic on an
embedded nul, exact nul-terminated copy otherwise. -/
theorem embedded_nul_aborts_never_truncates_witness :
    cstring_new [104, 0, 105] = Except.error () ∧
    add_hookdir 5 [[97]] [104, 0, 105] = none ∧
    cstring_new [104, 105] = Except.ok [104, 105, 0] := by
  obtain ⟨hbad, _⟩ := embedded_nul_aborts_never_truncates [104, 0, 105] 5 [[97]]
  obtain ⟨h1, h2, _, _⟩ := hbad (by decide)
  obtain ⟨_, hgood⟩ := embedded_nul_aborts_never_truncates [104, 105] 5 [[97]]
  exact ⟨h1, h2, hgood (by decide)⟩

/-- C3: for a path without an embedded nul, `FileList::contains` returns
`Ok(None)` exactly when the native lookup reports the path absent;
not-found is never reported as an error (no error value is ever produced);
and a present path comes back `Ok(Some(file))` with `file.name()` equal to
the queried path. -/
theorem filelist_contains_spec (fl : FileListT) (path : Bytes)
    (h : (0 : Nat) ∉ path) :
    (FileList.contains fl path = some (Except.ok none) ↔
      alpm_filelist_contains fl path = none) ∧
    (∀ e : Nat, FileList.contains fl path ≠ some (Except.error e)) ∧
    (∀ f : FileRec, alpm_filelist_contains fl path = some f →
      FileList.contains fl path = some (Except.ok (some f)) ∧
        File.name f = some path) := by
  have hc : cstring_new path = Except.ok (path ++ [0]) := by
    simp [cstring_new, h]
  refine ⟨?_, ?_, ?_⟩
  · constructor
    · intro hcontains
      cases hfind : alpm_filelist_contains fl path with
      | none => rfl
      | some f =>
          rw [FileList.contains, hc] at hcontains
          simp only [hfind] at hcontains
          simp at hcontains
    · intro hfind
      rw [FileList.contains, hc]
      simp only [hfind]
  · intro e hcontains
    rw [FileList.contains, hc] at hcontains
    cases hfind : alpm_filelist_contains fl path with
    | none => simp only [hfind] at hcontains; simp at hcontains
    | some f => simp only [hfind] at hcontains; simp at hcontains
  · intro f hfind
    refine ⟨by rw [FileList.contains, hc]; simp only [hfind], ?_⟩
    have := List.find?_some hfind
    have hname : f.namePtr = some path := by simpa using this
    simp [File.name, from_cstr, hname]

/-- C3 witness: the lookup contract at a concrete file list — a present
path yields `Ok(Some)` with the matching name, an absent one `Ok(None)`. -/
theorem filelist_contains_spec_witness :
    FileList.contains
        ⟨1, some [⟨some [98], 4, 2⟩]⟩ [98] =
      some (Except.ok (some ⟨some [98], 4, 2⟩)) ∧
    File.name ⟨some [98], 4, 2⟩ = some [98] ∧
    FileList.contains ⟨1, some [⟨some [98], 4, 2⟩]⟩ [99] =
      some (Except.ok none) := by
  obtain ⟨_, _, h3⟩ :=
    filelist_contains_spec ⟨1, some [⟨some [98], 4, 2⟩]⟩ [98] (by decide)
  obtain ⟨hcont, hname⟩ := h3 ⟨some [98], 4, 2⟩ (by decide)
  obtain ⟨h1, _, _⟩ :=
    filelist_contains_spec ⟨1, some [⟨some [98], 4, 2⟩]⟩ [99] (by decide)
  exact ⟨hcont, hname, h1.mpr (by decide)⟩

/-- C10: for any input without an embedded nul, `match_noupgrade` and
`match_noextract` are total over every native return code — they always
produce a value, never an error or a panic — and decode the integer by its
sign: zero yields `Match::Yes`, positive yields `Match::Inverted`,
negative yields `Match::No`. -/
theorem match_total_sign_decode (s : Bytes) (ret : Int)
    (h : (0 : Nat) ∉ s) :
    match_noupgrade s ret = some (match_decode ret) ∧
    match_noextract s ret = some (match_decode ret) ∧
    (ret = 0 → match_decode ret = Match.Yes) ∧
    (0 < ret → match_decode ret = Match.Inverted) ∧
    (ret < 0 → match_decode ret = Match.No) := by
  refine ⟨by simp [match_noupgrade, cstring_new, h],
    by simp [match_noextract, cstring_new, h],
    fun he => ?_, fun hg => ?_, fun hl => ?_⟩
  · simp [match_decode, compare_eq_iff_eq.mpr he]
  · simp [match_decode, compare_gt_iff_gt.mpr hg]
  · simp [match_decode, compare_lt_iff_lt.mpr hl]

/-- Helper: the list conversion succeeds, yielding the input list, when no
element holds an interior nul. -/
theorem into_raw_alpm_list_ok (xs : List Bytes)
    (h : ∀ x ∈ xs, (0 : Nat) ∉ x) :
    into_raw_alpm_list xs = Except.ok xs := by
  induction xs with
  | nil => rfl
  | cons x xs ih =>
      have hx : (0 : Nat) ∉ x := h x (List.mem_cons_self x xs)
      have htail := ih (fun y hy => h y (List.mem_cons_of_mem x hy))
      rw [into_raw_alpm_list]
      rw [show cstring_new x = Except.ok (x ++ [0]) by simp [cstring_new, hx]]
      rw [htail]

/-- Helper: the list conversion fails when some element holds an interior
nul. -/
theorem into_raw_alpm_list_error (xs : List Bytes)
    (h : ∃ x ∈ xs, (0 : Nat) ∈ x) :
    into_raw_alpm_list xs = Except.error () := by
  induction xs with
  | nil => obtain ⟨x, hx, _⟩ := h; exact absurd hx (List.not_mem_nil x)
  | cons x xs ih =>
      rw [into_raw_alpm_list]
      by_cases hx : (0 : Nat) ∈ x
      · rw [show cstring_new x = Except.error () by simp [cstring_new, hx]]
      · obtain ⟨y, hy, hy0⟩ := h
        rcases List.mem_cons.mp hy with rfl | htail
        · exact absurd hy0 hx
        · rw [show cstring_new x = Except.ok (x ++ [0]) by
            simp [cstring_new, hx]]
          rw [ih ⟨y, htail, hy0⟩]

/-- C4: every bulk set-list mutator replaces the managed list atomically:
when some element of the input fails the C-string conversion (embedded
nul), the operation reports failure and the managed list is the untouched
previous state — never a partial replacement; when every element converts,
the whole native list replaces the state. -/
theorem set_list_atomic (errno : Nat) (st xs : List Bytes) :
    ((∃ x ∈ xs, (0 : Nat) ∈ x) →
      set_hookdirs errno st xs = (Except.error (), st)) ∧
    ((∀ x ∈ xs, (0 : Nat) ∉ x) →
      set_hookdirs errno st xs = (Except.ok (Except.ok ()), xs)) := by
  constructor
  · intro hbad
    rw [set_hookdirs, into_raw_alpm_list_error xs hbad]
  · intro hgood
    rw [set_hookdirs, into_raw_alpm_list_ok xs hgood]
    simp [native_set, check_ret, Except.map]

/-- C4 witness: a nul inside the second element makes the bulk set report
failure with the previous list intact; clean input replaces it wholly. -/
theorem set_list_atomic_witness :
    set_hookdirs 9 [[97]] [[98], [0, 99]] = (Except.error (), [[97]]) ∧
    set_hookdirs 9 [[97]] [[98], [99]] =
      (Except.ok (Except.ok ()), [[98], [99]]) := by
  obtain ⟨hbad, _⟩ := set_list_atomic 9 [[97]] [[98], [0, 99]]
  obtain ⟨_, hgood⟩ := set_list_atomic 9 [[97]] [[98], [99]]
  exact ⟨hbad (by decide), hgood (by decide)⟩

/-- Helper: the `u32 as i32` / `i32 as u32` reinterpretation round-trips on
every 32-bit value. -/
theorem u32_of_i32_of_u32 (L : Nat) (h : L < 2 ^ 32) :
    u32_of_i32 (i32_of_u32 L) = L := by
  unfold u32_of_i32 i32_of_u32
  split <;> omega

/-- C5: for every valid signature-level flag combination `L` (a 32-bit
value whose bits all lie in the known-constant mask), setting then reading
the default, local-file and remote-file signature levels returns exactly
`L`, and the setter reports success. -/
theorem siglevel_round_trip (errno mask L : Nat) (hm : L &&& mask = L)
    (h32 : L < 2 ^ 32) :
    default_siglevel mask (set_default_siglevel errno L).2 = some L ∧
    local_file_siglevel mask (set_local_file_siglevel errno L).2 = some L ∧
    remote_file_siglevel mask (set_remote_file_siglevel errno L).2 = some L ∧
    (set_default_siglevel errno L).1 = Except.ok () := by
  have hrt : u32_of_i32 (i32_of_u32 L) = L := u32_of_i32_of_u32 L h32
  refine ⟨?_, ?_, ?_, ?_⟩
  · simp [default_siglevel, set_default_siglevel, native_store_siglevel,
      hrt, flags_from_bits, hm]
  · simp [local_file_siglevel, set_local_file_siglevel,
      native_store_siglevel, hrt, flags_from_bits, hm]
  · simp [remote_file_siglevel, set_remote_file_siglevel,
      native_store_siglevel, hrt, flags_from_bits, hm]
  · simp [set_default_siglevel, native_store_siglevel, check_ret, Except.map]

/-- C5 witness: the round-trip at the concrete flag combination
`PACKAGE | DATABASE`-style bits `1 ||| 1024` under a mask holding them. -/
theorem siglevel_round_trip_witness :
    default_siglevel 3087 (set_default_siglevel 2 1025).2 = some 1025 ∧
    local_file_siglevel 3087 (set_local_file_siglevel 2 1025).2 =
      some 1025 := by
  obtain ⟨h1, h2, _, _⟩ :=
    siglevel_round_trip 2 3087 1025 (by decide) (by norm_num)
  exact ⟨h1, h2⟩

/-- C6: for every valid root/database path pair (paths without an interior
nul, accepted by the native library), Handle creation succeeds, and
afterwards `root()` returns exactly the given root path and `dbpath()`
exactly the given database path. -/
theorem handle_new_echoes_paths (root dbpath : Bytes)
    (h1 : (0 : Nat) ∉ root) (h2 : (0 : Nat) ∉ dbpath) :
    ∃ h : Handle, Alpm.new root dbpath = some h ∧
      Alpm.root h = some root ∧ Alpm.dbpath h = some dbpath := by
  refine ⟨{ rootPtr := some root, dbpathPtr := some dbpath,
            lockfilePtr := some (dbpath ++ [100, 98, 46, 108, 99, 107]),
            logfilePtr := none, gpgdirPtr := none }, ?_, rfl, rfl⟩
  simp [Alpm.new, h1, h2]

/-- C6 witness: creation from the test's paths `"/"` and `"tests/db/"`-like
concrete byte strings echoes both. -/
theorem handle_new_echoes_paths_witness :
    ∃ h : Handle, Alpm.new [47] [100, 98, 47] = some h ∧
      Alpm.root h = some [47] ∧ Alpm.dbpath h = some [100, 98, 47] :=
  handle_new_echoes_paths [47] [100, 98, 47] (by decide) (by decide)

/-- C7 counterexample: the claim says the optional-to-empty accessors
return the empty string *exactly when* the native pointer is null; on the
concrete handle whose gpgdir pointer is non-null but points at the empty
text, `gpgdir()` still returns the empty string. -/
theorem gpgdir_empty_on_nonnull :
    Alpm.gpgdir
        { rootPtr := some [47], dbpathPtr := some [47],
          lockfilePtr := some [108], logfilePtr := none,
          gpgdirPtr := some [] } = [] ∧
    ({ rootPtr := some [47], dbpathPtr := some [47],
       lockfilePtr := some [108], logfilePtr := none,
       gpgdirPtr := some [] } : Handle).gpgdirPtr ≠ none := by
  exact ⟨rfl, by decide⟩

/-- C7 (amended): string accessors distinguish three retrieval modes and
the optional mode never conflates absent with empty: strict accessors
(`lockfile`, `Pkg::name`) panic exactly on a null native pointer and
return the pointed-to text otherwise; optional accessors (`logfile`,
`Pkg::url`, `Pkg::desc`, `Pkg::packager`) return `None` exactly when the
pointer is null and `Some` of the text otherwise; optional-to-empty
accessors (`gpgdir`, `Pkg::filename`) return the empty string when the
pointer is null and the pointed-to text otherwise — so a non-null empty
text is indistinguishable from null in this mode only. -/
theorem accessor_retrieval_modes (h : Handle) (p : PkgData) :
    (Alpm.lockfile h = none ↔ h.lockfilePtr = none) ∧
    (∀ s, h.lockfilePtr = some s → Alpm.lockfile h = some s) ∧
    (Pkg.name p = none ↔ p.namePtr = none) ∧
    (Alpm.logfile h = none ↔ h.logfilePtr = none) ∧
    (∀ s, h.logfilePtr = some s → Alpm.logfile h = some s) ∧
    (Pkg.url p = none ↔ p.urlPtr = none) ∧
    (Pkg.desc p = none ↔ p.descPtr = none) ∧
    (Pkg.packager p = none ↔ p.packagerPtr = none) ∧
    (h.gpgdirPtr = none → Alpm.gpgdir h = []) ∧
    (∀ s, h.gpgdirPtr = some s → Alpm.gpgdir h = s) ∧
    (p.filenamePtr = none → Pkg.filename p = []) ∧
    (∀ s, p.filenamePtr = some s → Pkg.filename p = s) := by
  refine ⟨?_, ?_, ?_, ?_, ?_, ?_, ?_, ?_, ?_, ?_, ?_, ?_⟩ <;>
    first
    | (cases hp : h.lockfilePtr <;>
        simp [Alpm.lockfile, from_cstr, hp])
    | (cases hp : p.namePtr <;> simp [Pkg.name, from_cstr, hp])
    | (intro s hs;
        simp [Alpm.lockfile, Alpm.logfile, Alpm.gpgdir, Pkg.filename,
          from_cstr, from_cstr_optional, from_cstr_optional2, hs])
    | simp [Alpm.logfile, Pkg.url, Pkg.desc, Pkg.packager,
        from_cstr_optional]
    | (intro hnull;
        simp [Alpm.gpgdir, Pkg.filename, from_cstr_optional2, hnull])

/-- C7 witness: the three modes at a concrete handle and package — strict
text on a present pointer, optional `None` on null, optional-to-empty
empty string on null, and the pointed-to description text on present. -/
theorem accessor_retrieval_modes_witness :
    Alpm.lockfile
        { rootPtr := some [47], dbpathPtr := some [47],
          lockfilePtr := some [108], logfilePtr := none,
          gpgdirPtr := none } = some [108] ∧
    Alpm.logfile
        { rootPtr := some [47], dbpathPtr := some [47],
          lockfilePtr := some [108], logfilePtr := none,
          gpgdirPtr := none } = none ∧
    Pkg.url
        { namePtr := some [110], filenamePtr := none, descPtr := some [],
          urlPtr := none, packagerPtr := none } = none ∧
    Pkg.filename
        { namePtr := some [110], filenamePtr := none, descPtr := some [],
          urlPtr := none, packagerPtr := none } = [] := by
  obtain ⟨_, hlock, _, hlog, _, hurl, _, _, _, _, hfile, _⟩ :=
    accessor_retrieval_modes
      { rootPtr := some [47], dbpathPtr := some [47],
        lockfilePtr := some [108], logfilePtr := none, gpgdirPtr := none }
      { namePtr := some [110], filenamePtr := none, descPtr := some [],
        urlPtr := none, packagerPtr := none }
  exact ⟨hlock [108] rfl, hlog.mpr rfl, hurl.mpr rfl, hfile rfl⟩

/-- C8: `files()` is empty-safe — a null native pointer yields the
zero-length slice without any dereference, and a non-null pointer (whose
array holds the `count` records the native contract promises) yields a
slice of exactly `count` records, each exposing its name, size and mode
fields. -/
theorem files_empty_safe (fl : FileListT) :
    (fl.filesPtr = none → FileList.files fl = []) ∧
    (∀ arr, fl.filesPtr = some arr → fl.count ≤ arr.length →
      (FileList.files fl).length = fl.count ∧
      ∀ i, i < fl.count → (FileList.files fl)[i]? = arr[i]?) ∧
    (∀ f ∈ FileList.files fl,
      File.name f = from_cstr f.namePtr ∧ File.size f = f.size ∧
        File.mode f = f.mode) := by
  refine ⟨fun hnull => by simp [FileList.files, hnull], ?_,
    fun f _ => ⟨rfl, rfl, rfl⟩⟩
  intro arr harr hcount
  constructor
  · simp [FileList.files, harr, List.length_take, Nat.min_eq_left hcount]
  · intro i hi
    simp only [FileList.files, harr]
    exact List.getElem?_take_of_lt hi

/-- C8 witness: the slice at a concrete null list and a concrete two-record
list. -/
theorem files_empty_safe_witness :
    FileList.files ⟨3, none⟩ = [] ∧
    (FileList.files ⟨2, some [⟨some [97], 1, 2⟩, ⟨none, 3, 4⟩]⟩).length =
      2 := by
  obtain ⟨hn, _, _⟩ := files_empty_safe ⟨3, none⟩
  obtain ⟨_, hs, _⟩ :=
    files_empty_safe ⟨2, some [⟨some [97], 1, 2⟩, ⟨none, 3, 4⟩]⟩
  exact ⟨hn rfl, (hs _ rfl (by decide)).1⟩

/-- C9: every bit-flag decoding accessor (`default_siglevel`,
`local_file_siglevel`, `remote_file_siglevel`, `Pkg::validation`) matches
the native integer against the known-constant mask and fails closed —
panics, returning no value — on any integer carrying unrecognized bits,
and otherwise returns exactly the integer's bits, never a value with bits
dropped. -/
theorem flags_fail_closed (mask vmask : Nat) (st raw : Int) :
    (u32_of_i32 st &&& mask ≠ u32_of_i32 st →
      default_siglevel mask st = none ∧
      local_file_siglevel mask st = none ∧
      remote_file_siglevel mask st = none) ∧
    (u32_of_i32 st &&& mask = u32_of_i32 st →
      default_siglevel mask st = some (u32_of_i32 st)) ∧
    (u32_of_i32 raw &&& vmask ≠ u32_of_i32 raw →
      Pkg.validation vmask raw = none) ∧
    (u32_of_i32 raw &&& vmask = u32_of_i32 raw →
      Pkg.validation vmask raw = some (u32_of_i32 raw)) := by
  refine ⟨fun hbad => ?_, fun hok => ?_, fun hbad => ?_, fun hok => ?_⟩
  · exact ⟨by simp [default_siglevel, flags_from_bits, hbad],
      by simp [local_file_siglevel, flags_from_bits, hbad],
      by simp [remote_file_siglevel, flags_from_bits, hbad]⟩
  · simp [default_siglevel, flags_from_bits, hok]
  · simp [Pkg.validation, flags_from_bits, hbad]
  · simp [Pkg.validation, flags_from_bits, hok]

/-- C9 witness: under the mask `3`, the stored value `5` carries an
unknown bit and the decode panics; the stored value `3` decodes to exactly
its bits. -/
theorem flags_fail_closed_witness :
    default_siglevel 3 5 = none ∧ default_siglevel 3 3 = some 3 ∧
    Pkg.validation 3 5 = none := by
  obtain ⟨hbad, _, hvbad, _⟩ := flags_fail_closed 3 3 5 5
  obtain ⟨_, hok, _, _⟩ := flags_fail_closed 3 3 3 5
  exact ⟨(hbad (by decide)).1, by rw [hok (by decide)]; rfl,
    hvbad (by decide)⟩

/-- C10 witness: the sign decode at concrete inputs. -/
theorem match_total_sign_decode_witness :
    match_noupgrade [97] 0 = some Match.Yes ∧
    match_noextract [97] 3 = some Match.Inverted ∧
    match_noupgrade [97] (-2) = some Match.No := by
  obtain ⟨h1, _, hy, _, _⟩ := match_total_sign_decode [97] 0 (by decide)
  obtain ⟨_, h2, _, hi, _⟩ := match_total_sign_decode [97] 3 (by decide)
  obtain ⟨h3, _, _, _, hn⟩ := match_total_sign_decode [97] (-2) (by decide)
  exact ⟨by rw [h1, hy rfl], by rw [h2, hi (by decide)],
    by rw [h3, hn (by decide)]⟩

end AlpmRs
